import Mathlib

/-!
# Verification of the `gocaption` EIA/CEA-608 caption decoder

A shallow embedding of the Go sources `eia608.go` and `cea708.go`
(package `captions`) into Lean 4, together with theorems settling the
frozen claims about the decoder.

Conventions of the embedding:
* Go `uint` (64-bit) values are `Nat` with explicit wrap-around
  (`% 2^64`) where the Go arithmetic can overflow or underflow.
* Go `uint16` arithmetic is `Nat` with explicit `% 2^16`.
* Go `int` fields are `Int`.
* Go runes are `Nat` code points; Go strings are `List Nat`.
* A Go runtime panic (out-of-range array index) is modelled by an
  operation returning `none`; fallible code returns `Option`/`Except`.
* The `*frameBuffer` pointer `active` (always `nil`, `&f.front` or
  `&f.back`) is modelled by an `Option BufSel` selector.
-/

set_option maxRecDepth 100000

/-- 2^64, the modulus of Go's 64-bit `uint` arithmetic. -/
def U64 : Nat := 18446744073709551616

/-- Go `uint` addition (wraps at 2^64). -/
def uadd (a b : Nat) : Nat := (a + b) % U64

/-- Go `uint` subtraction (wraps at 2^64); `a` is assumed reduced mod 2^64. -/
def usub (a b : Nat) : Nat := (a + (U64 - b % U64)) % U64

/-- Go `uint16` addition. -/
def uadd16 (a b : Nat) : Nat := (a + b) % 65536

/-- Go `uint16` subtraction (wraps at 2^16); `a` is assumed reduced mod 2^16. -/
def usub16 (a b : Nat) : Nat := (a + (65536 - b % 65536)) % 65536

/-- Go cast `uint(i)` of an `int` value (two's complement reinterpretation). -/
def u64ofInt (i : Int) : Nat := (i % (U64 : Int)).toNat

/-- Go cast `int(n)` of a `uint` value (two's complement reinterpretation). -/
def i64ofU64 (n : Nat) : Int :=
  if n < 9223372036854775808 then (n : Int) else (n : Int) - (U64 : Int)

/-- Go 64-bit `int` wrap-around (used where `int` addition could overflow). -/
def wrapInt64 (n : Int) : Int :=
  (n + 9223372036854775808) % (U64 : Int) - 9223372036854775808

/-- `Rows = 15` from `eia608.go`. -/
def Rows : Nat := 15

/-- `Cols = 32` from `eia608.go`. -/
def Cols : Nat := 32

/-- `Mode608` from `eia608.go`. -/
inductive Mode608 where
  | Unknown
  | PopOn
  | PaintOn
deriving DecidableEq

/-- `EIA608State` from `eia608.go` (`Content` as a list of code points). -/
structure EIA608State where
  Mode : Mode608
  Rollup : Int
  Row : Int
  Col : Int
  Content : List Nat
deriving DecidableEq

/-- `frameBufferChar` from `eia608.go` (`char` as a code point, 0 = empty). -/
structure frameBufferChar where
  underline : Bool
  style : Nat
  char : Nat
deriving DecidableEq

/-- The zero value `frameBufferChar{}`. -/
def emptyChar : frameBufferChar := { underline := false, style := 0, char := 0 }

/-- `frameBuffer` from `eia608.go`: a 15x32 grid of cells (as a total
function on indices; all operations below bound-check indices exactly as
the Go runtime does) plus the embedded display state. -/
structure frameBuffer where
  state : EIA608State
  data : Nat → Nat → frameBufferChar

/-- The zero value of `EIA608State`. -/
def zeroState : EIA608State :=
  { Mode := Mode608.Unknown, Rollup := 0, Row := 0, Col := 0, Content := [] }

/-- The zero value of `frameBuffer`. -/
def emptyBuffer : frameBuffer := { state := zeroState, data := fun _ _ => emptyChar }

/-- Which of the two owned buffers `f.active` points at. -/
inductive BufSel where
  | front
  | back
deriving DecidableEq

/-- `EIA608Frame` from `eia608.go`. -/
structure EIA608Frame where
  underline : Bool
  style : Nat
  row : Nat
  col : Nat
  ccData : Nat
  front : frameBuffer
  back : frameBuffer
  active : Option BufSel

/-- The zero value `EIA608Frame{}` (a fresh decoder). -/
def freshFrame : EIA608Frame :=
  { underline := false, style := 0, row := 0, col := 0, ccData := 0,
    front := emptyBuffer, back := emptyBuffer, active := none }

/-- Read the buffer a selector points at. -/
def getBuf (f : EIA608Frame) (s : BufSel) : frameBuffer :=
  match s with
  | BufSel.front => f.front
  | BufSel.back => f.back

/-- Write the buffer a selector points at. -/
def setBuf (f : EIA608Frame) (s : BufSel) (b : frameBuffer) : EIA608Frame :=
  match s with
  | BufSel.front => { f with front := b }
  | BufSel.back => { f with back := b }

/-- Dereference `f.active` (`none` = nil pointer). -/
def activeBuf (f : EIA608Frame) : Option frameBuffer :=
  match f.active with
  | none => none
  | some s => some (getBuf f s)

/-- Store a buffer through `f.active` (no-op when nil, never reached so). -/
def setActiveBuf (f : EIA608Frame) (b : frameBuffer) : EIA608Frame :=
  match f.active with
  | none => f
  | some s => setBuf f s b

/-- The helper `bx` inside the `parityTable` initializer:
`func(b, x int) byte { return byte(b << x & 0x80) }`. -/
def bx (b x : Nat) : Nat := (b <<< x) &&& 0x80

/-- `parityTable[i]` from `eia608.go` (the 128-entry table as a function):
`table[i] = byte(i & 0x7F) | (0x80 ^ bx(i,1) ^ ... ^ bx(i,7))`. -/
def parityTable (i : Nat) : Nat :=
  (i &&& 0x7F) |||
    (0x80 ^^^ bx i 1 ^^^ bx i 2 ^^^ bx i 3 ^^^ bx i 4 ^^^ bx i 5 ^^^ bx i 6 ^^^ bx i 7)

/-- `parityByte` from `eia608.go`. -/
def parityByte (ccData : Nat) : Nat := parityTable (0x7F &&& ccData)

/-- `parityWord` from `eia608.go`. -/
def parityWord (ccData : Nat) : Nat :=
  (parityTable (0x7F &&& (ccData >>> 8))) <<< 8 ||| parityTable (0x7F &&& (ccData &&& 0xFF))

/-- `charMap` from `eia608.go`, written as one string in table order
(8 blocks: basic NA 0x00-0x5F, special NA, extended Spanish/Misc,
extended French, Portuguese, German/Danish). -/
def charMapStr : String :=
  " !\"#$%&’()á+,-./0123456789:;<=>?@ABCDEFGHIJKLMNOPQRSTUVWXYZ[é]íóúabcdefghijklmnopqrstuvwxyzç÷Ññ█®°½¿™¢£♪à èâêîôû" ++
  "ÁÉÓÚÜü‘¡*\x27—©℠•“”ÀÂÇÈÊËëÎÏïÔÙùÛ«»ÃãÍÌìÒòÕõ\x7b\x7d\\^_|~ÄäÖöß¥¤¦ÅåØø┌┐└┘"

/-- `charMap` as a list of code points. -/
def charMap : List Nat := charMapStr.toList.map Char.toNat

/-- `rowMap` from `eia608.go` (reverse order so row 0 is the bottom;
note the second entry is `Rows` = 15). -/
def rowMap : List Nat := [4, Rows, 14, 13, 12, 11, 3, 2, 1, 0, 10, 9, 8, 7, 6, 5]

/-- `isControl` from `eia608.go`. -/
def isControl (ccData : Nat) : Bool :=
  (0x7670 &&& ccData) == 0x1420 || (0x7770 &&& ccData) == 0x1720

/-- `isPreamble` from `eia608.go`. -/
def isPreamble (ccData : Nat) : Bool := (0x7040 &&& ccData) == 0x1040

/-- `isMidRowChange` from `eia608.go`. -/
def isMidRowChange (ccData : Nat) : Bool := (0x7770 &&& ccData) == 0x1120

/-- `isBasicNA` from `eia608.go`. -/
def isBasicNA (ccData : Nat) : Bool := (0x6000 &&& ccData) != 0x0000

/-- `isSpecialNA` from `eia608.go`. -/
def isSpecialNA (ccData : Nat) : Bool := (0x7770 &&& ccData) == 0x1130

/-- `isWesternEu` from `eia608.go`. -/
def isWesternEu (ccData : Nat) : Bool := (0x7660 &&& ccData) == 0x1220

/-- `frameBuffer.clear` from `eia608.go`. -/
def clear (b : frameBuffer) : frameBuffer := { b with data := fun _ _ => emptyChar }

/-- `frameBuffer.clearState` from `eia608.go`: clears the grid and resets
`state.Row`/`state.Col` (note: `state.Rollup` is kept). -/
def clearState (b : frameBuffer) : frameBuffer :=
  let b1 := clear b
  { b1 with state := { b1.state with Row := 0, Col := 0 } }

/-- `frameBuffer.setChar` from `eia608.go`: bound-checked cell write via
`getChar` (out of range is a no-op), returns whether the cell changed. -/
def setChar (b : frameBuffer) (r c : Nat) (char : frameBufferChar) :
    frameBuffer × Bool :=
  if r < Rows ∧ c < Cols then
    if b.data r c ≠ char then
      ({ b with data := fun r' c' => if r' = r ∧ c' = c then char else b.data r' c' },
        true)
    else (b, false)
  else (b, false)

/-- The body of the `for` loop in `frameBuffer.carriageReturn`:
`for i := uint(0); i < n; i++ { idx := row+n-i; b.data[idx] = b.data[idx-1] }`.
The first argument counts the remaining iterations (`n - i`); the Go
local `idx` is written out as `usub (uadd row n) i` and `idx-1` as
`usub (usub (uadd row n) i) 1`; an out-of-range index (a Go panic)
yields `none`. -/
def crLoop (row n : Nat) :
    Nat → Nat → (Nat → Nat → frameBufferChar) → Option (Nat → Nat → frameBufferChar)
  | 0, _, d => some d
  | rem + 1, i, d =>
    if usub (uadd row n) i < Rows ∧ usub (usub (uadd row n) i) 1 < Rows then
      crLoop row n rem (i + 1)
        (fun r c =>
          if r = usub (uadd row n) i then d (usub (usub (uadd row n) i) 1) c else d r c)
    else none

/-- `frameBuffer.carriageReturn` from `eia608.go`.  Go `uint` arithmetic
(including the under-flowing `n := rollups - 1` when `Rollup = 0`) is kept
exactly, with the Go locals `rollups = uint(b.state.Rollup)` and
`n = rollups - 1` written out; the out-of-range indexing the underflow
can cause is a Go panic = `none`. -/
def carriageReturn (b : frameBuffer) (row : Nat) : Option frameBuffer :=
  if uadd row (u64ofInt b.state.Rollup) ≥ Rows + 1 ∨
      uadd row (u64ofInt b.state.Rollup) = 0 then some b
  else
    match crLoop row (usub (u64ofInt b.state.Rollup) 1)
        (usub (u64ofInt b.state.Rollup) 1) 0 b.data with
    | none => none
    | some d =>
      if row < Rows then
        some { b with data := fun r c => if r = row then emptyChar else d r c }
      else none

/-- `frameBuffer.String` from `eia608.go`: non-empty rows bottom-up,
reversed to top-down, joined with a line break (code point 10). -/
def frameBufferString (b : frameBuffer) : List Nat :=
  let s := ((List.range Rows).map
      (fun r => ((List.range Cols).map (fun c => b.data r c)).filterMap
        (fun ch => if ch.char = 0 then none else some ch.char))).filter
    (fun l => l ≠ [])
  List.intercalate [10] s.reverse

/-- `EIA608Frame.backspace` from `eia608.go` (`none` = nil `active`). -/
def backspace (f : EIA608Frame) : Option EIA608Frame :=
  match f.active with
  | none => none
  | some sel =>
    let col := if f.col > 0 then f.col - 1 else f.col
    let b := (setChar (getBuf f sel) f.row col emptyChar).1
    some (setBuf { f with col := col } sel b)

/-- `EIA608Frame.writeChar` from `eia608.go` (`none` = nil `active`). -/
def writeChar (f : EIA608Frame) (i : Nat) : Option (EIA608Frame × Bool) :=
  match f.active with
  | none => none
  | some sel =>
    let char := if i < charMap.length then charMap.getD i 0 else 0xFFFD
    let br := setChar (getBuf f sel) f.row f.col
      { underline := f.underline, style := f.style, char := char }
    let col := if f.col < Cols then f.col + 1 else f.col
    some (setBuf { f with col := col } sel br.1, br.2)

/-- The command word extracted at the top of `EIA608Frame.parseControl`. -/
def ctrlCmd (ccData : Nat) : Nat :=
  if 0 = 0x0200 &&& ccData then 0x167F &&& ccData else 0x177F &&& ccData

/-- `EIA608Frame.parseControl` from `eia608.go`; returns the readiness
flag; `none` is the Go panic reachable through `carriageReturn`. -/
def parseControl (f : EIA608Frame) (ccData : Nat) : Option (EIA608Frame × Bool) :=
  match ctrlCmd ccData with
  | 0x1429 =>  -- resume direct captioning
    let b := { f.front with state := { f.front.state with Rollup := 1 } }
    some ({ f with front := b, active := some BufSel.front }, false)
  | 0x142C =>  -- erase display memory
    some ({ f with front := clear f.front }, true)
  | 0x1425 =>  -- roll up 2
    let b := { f.front with state := { f.front.state with Rollup := 2 } }
    some ({ f with front := b, active := some BufSel.front }, false)
  | 0x1426 =>  -- roll up 3
    let b := { f.front with state := { f.front.state with Rollup := 3 } }
    some ({ f with front := b, active := some BufSel.front }, false)
  | 0x1427 =>  -- roll up 4
    let b := { f.front with state := { f.front.state with Rollup := 4 } }
    some ({ f with front := b, active := some BufSel.front }, false)
  | 0x142D =>  -- carriage return
    match f.active with
    | none => some (f, false)
    | some sel =>
      let f1 := { f with col := 0 }
      match carriageReturn (getBuf f1 sel) f1.row with
      | none => none
      | some b =>
        let b1 := { b with state := { b.state with Col := 0 } }
        some (setBuf f1 sel b1, false)
  | 0x1421 =>  -- backspace
    match f.active with
    | none => some (f, false)
    | some _ =>
      match backspace f with
      | none => none
      | some f1 => some (f1, false)
  | 0x1424 =>  -- delete to end of row
    match f.active with
    | none => some (f, false)
    | some sel =>
      let b := (List.range' f.col (Cols - f.col)).foldl
        (fun bb i => (setChar bb f.row i emptyChar).1) (getBuf f sel)
      some (setBuf f sel b, false)
  | 0x1420 =>  -- resume caption loading
    let b := { f.back with state := { f.back.state with Rollup := 0 } }
    some ({ f with back := b, active := some BufSel.back }, false)
  | 0x142E =>  -- erase non displayed memory
    some ({ f with back := clear f.back }, false)
  | 0x142F =>  -- end of caption
    let f1 := { f with front := f.back, back := clearState f.front }
    some ({ f1 with col := 0, row := 0, active := some BufSel.back }, true)
  | 0x1721 =>  -- tab offset 1
    match f.active with
    | none => some (f, false)
    | some sel =>
      let b := getBuf f sel
      let b1 := { b with state := { b.state with Col := wrapInt64 (b.state.Col + 1) } }
      some (setBuf { f with col := uadd f.col 1 } sel b1, false)
  | 0x1722 =>  -- tab offset 2
    match f.active with
    | none => some (f, false)
    | some sel =>
      let b := getBuf f sel
      let b1 := { b with state := { b.state with Col := wrapInt64 (b.state.Col + 2) } }
      some (setBuf { f with col := uadd f.col 2 } sel b1, false)
  | 0x1723 =>  -- tab offset 3
    match f.active with
    | none => some (f, false)
    | some sel =>
      let b := getBuf f sel
      let b1 := { b with state := { b.state with Col := wrapInt64 (b.state.Col + 3) } }
      some (setBuf { f with col := uadd f.col 3 } sel b1, false)
  | _ => some (f, false)

/-- `EIA608Frame.parsePreamble` from `eia608.go` (`none` = nil `active`). -/
def parsePreamble (f : EIA608Frame) (ccData : Nat) : Option EIA608Frame :=
  match f.active with
  | none => none
  | some sel =>
    let row := rowMap.getD (((0x0700 &&& ccData) >>> 7) ||| ((0x0020 &&& ccData) >>> 5)) 0
    let underline := 0x0001 &&& ccData = 1
    let (col, style) :=
      if 0x0010 &&& ccData = 0 then ((0 : Nat), (0x000E &&& ccData) >>> 1)
      else (4 * ((0x000E &&& ccData) >>> 1), 0)
    let f1 := { f with row := row, col := col, underline := underline, style := style }
    let b := getBuf f1 sel
    let b1 := { b with state :=
      { b.state with Row := i64ofU64 row, Col := i64ofU64 col } }
    some (setBuf f1 sel b1)

/-- `EIA608Frame.parseMidRowChange` from `eia608.go`. -/
def parseMidRowChange (f : EIA608Frame) (ccData : Nat) : EIA608Frame :=
  if 0x1120 = 0x7770 &&& ccData then
    { f with style := (0x000E &&& ccData) >>> 1, underline := 0x0001 &&& ccData = 1 }
  else f

/-- `EIA608Frame.parseText` from `eia608.go`. -/
def parseText (f : EIA608Frame) (ccData : Nat) : Option EIA608Frame :=
  if isBasicNA ccData then
    match writeChar f (usub16 (ccData >>> 8) 0x20) with
    | none => none
    | some (f1, _) =>
      let low := ccData &&& 0x00FF
      if 0x0020 ≤ low ∧ 0x0080 > low then
        match writeChar f1 (usub16 low 0x20) with
        | none => none
        | some (f2, _) => some f2
      else some f1
  else
    let cc := ccData &&& 0xF7FF
    if isSpecialNA cc then
      match writeChar f (uadd16 (usub16 cc 0x1130) 0x60) with
      | none => none
      | some (f1, _) => some f1
    else if 0x1220 ≤ cc ∧ 0x1240 > cc then
      match backspace f with
      | none => none
      | some f1 =>
        match writeChar f1 (uadd16 (usub16 cc 0x1220) 0x70) with
        | none => none
        | some (f2, _) => some f2
    else if 0x1320 ≤ cc ∧ 0x1340 > cc then
      match backspace f with
      | none => none
      | some f1 =>
        match writeChar f1 (uadd16 (usub16 cc 0x1320) 0x90) with
        | none => none
        | some (f2, _) => some f2
    else some f

/-- `EIA608Frame.Decode` from `eia608.go`: one decode step on a 16-bit
unit.  The Go return `(bool, error)` always carries a `nil` error, so
the embedding returns the readiness flag; `none` models a Go panic. -/
def Decode (f : EIA608Frame) (ccData : Nat) : Option (EIA608Frame × Bool) :=
  if parityWord ccData ≠ ccData then some (f, false)
  else
    let cc := ccData &&& 0x7F7F
    if cc = 0 then some (f, false)
    else if (isSpecialNA cc || isControl cc) ∧ cc = f.ccData then some (f, false)
    else
      let f1 := { f with ccData := cc }
      if isControl cc then parseControl f1 cc
      else if f1.active = none then some (f1, false)
      else if isPreamble cc then
        match parsePreamble f1 cc with
        | none => none
        | some f2 => some (f2, false)
      else if isMidRowChange cc then some (parseMidRowChange f1 cc, false)
      else if isBasicNA cc || isSpecialNA cc || isWesternEu cc then
        match parseText f1 cc with
        | none => none
        | some f2 =>
          match activeBuf f2 with
          | none => none
          | some b => some (f2, decide (b.state.Rollup > 0))
      else some (f1, false)

/-- `EIA608Frame.String` from `eia608.go`. -/
def frameString (f : EIA608Frame) : List Nat := frameBufferString f.front

/-- `EIA608Frame.StateSnapshot` from `eia608.go`. -/
def StateSnapshot (f : EIA608Frame) : EIA608State :=
  match f.active with
  | none => { zeroState with Mode := Mode608.Unknown }
  | some _ =>
    let fb := f.front
    let mode := if fb.state.Rollup > 0 then Mode608.PaintOn else Mode608.PopOn
    { Mode := mode, Rollup := fb.state.Rollup,
      Row := (Rows : Int) - fb.state.Row, Col := fb.state.Col,
      Content := frameBufferString fb }

/-- Run `Decode` over a list of units (propagating a panic as `none`),
as the test harness in the repository does. -/
def runDecode (f : EIA608Frame) : List Nat → Option EIA608Frame
  | [] => some f
  | c :: rest =>
    match Decode f c with
    | none => none
    | some (f1, _) => runDecode f1 rest

/-- `cea708_cc_data` from `cea708.go` (`cc_type` as its `Nat` value). -/
structure cea708_cc_data where
  marker_bits : Nat
  cc_valid : Bool
  cc_type : Nat
  cc_data : Nat
deriving DecidableEq

/-- `cea708_user_data` from `cea708.go`. -/
structure cea708_user_data where
  process_em_data_flag : Bool
  process_cc_data_flag : Bool
  additional_data_flag : Bool
  cc_count : Nat
  em_data : Nat
  cc_data : List cea708_cc_data
deriving DecidableEq

/-- `isPrintable` from `cea708.go` (`ntsc_cc_field_1 = 0`). -/
def isPrintable (cd : cea708_cc_data) : Bool := cd.cc_valid && cd.cc_type == 0

/-- `printableCCData` from `cea708.go`. -/
def printableCCData (ud : cea708_user_data) : List Nat :=
  ud.cc_data.filterMap (fun cd => if isPrintable cd then some cd.cc_data else none)

/-- The `for` loop in `parseCEA708UserData`:
`for i := 2; i+2 < len(data) && byte(len(cc_data)) < cc_count; i += 3`.
The fuel argument (instantiated with `data.length`, an upper bound on the
iteration count) makes the recursion structural. -/
def ccLoop (data : List Nat) :
    Nat → Nat → Nat → List cea708_cc_data → List cea708_cc_data
  | 0, _, _, acc => acc
  | fuel + 1, i, cnt, acc =>
    if i + 2 < data.length ∧ acc.length % 256 < cnt then
      let d0 := data.getD i 0
      let e : cea708_cc_data :=
        { marker_bits := d0 >>> 3, cc_valid := d0 &&& 0x40 == 0x40,
          cc_type := d0 &&& 0x3,
          cc_data := (data.getD (i + 1) 0) <<< 8 ||| data.getD (i + 2) 0 }
      ccLoop data fuel (i + 3) cnt (acc ++ [e])
    else acc

/-- `parseCEA708UserData` from `cea708.go`. -/
def parseCEA708UserData (data : List Nat) : Except String cea708_user_data :=
  if data.length ≤ 2 then Except.error "insufficient cea708 user data"
  else
    let b0 := data.getD 0 0
    let cnt := b0 &&& 0x1F
    let ccs := ccLoop data data.length 2 cnt []
    if ccs.length ≠ cnt then Except.error "mismatched cc count"
    else Except.ok
      { process_em_data_flag := b0 &&& 0x80 == 0x80,
        process_cc_data_flag := b0 &&& 0x40 == 0x40,
        additional_data_flag := b0 &&& 0x20 == 0x20,
        cc_count := cnt, em_data := data.getD 1 0, cc_data := ccs }

/-- `parseCEA708` from `cea708.go` (`Provider_DirectTV = 47`,
`Provider_ATSC = 49`); index arithmetic over the byte buffer is kept in
the order of the Go statements. -/
def parseCEA708 (data : List Nat) : Except String cea708_user_data :=
  let sz := data.length
  if sz < 4 then Except.error "insuffucient data to detect payload size"
  else
    let country := data.getD 0 0
    let i1 := if country = 0xFF then 2 else 1
    let provider := (data.getD i1 0) <<< 8 ||| data.getD (i1 + 1) 0
    let i2 := i1 + 2
    if provider = 49 ∧ (sz : Int) - i2 < 4 then
      Except.error "insufficient data to read user identifier"
    else
      let i3 := if provider = 49 then i2 + 4 else i2
      let i4 := if provider = 0 ∧ country = 0 then i3 + 1 else i3
      if (provider = 49 ∨ provider = 47) ∧ (sz : Int) - i4 ≤ 1 then
        Except.error "insufficient data to read provider type code"
      else
        let tc := if provider = 49 ∨ provider = 47 then data.getD i4 0 else 0
        let i5 := if provider = 49 ∨ provider = 47 then i4 + 1 else i4
        if tc = 3 ∧ (sz : Int) - i5 ≥ 2 then parseCEA708UserData (data.drop i5)
        else Except.error "trailing user data"

/-- `CEA708ToCCData` from `cea708.go`, with the Go `([]uint16, error)`
return modelled as a pair (`none` = nil error). -/
def CEA708ToCCData (data : List Nat) : List Nat × Option String :=
  match parseCEA708 data with
  | Except.error e => ([], some e)
  | Except.ok ud => (printableCCData ud, none)

/-- Number of set bits among the low `w` bits of `n`. -/
def bitsOn (n w : Nat) : Nat := ((List.range w).filter (fun k => n.testBit k)).length

/-- The decoder state after one `Decode` step (the input state if the
step panicked); used to name intermediate states in concrete runs. -/
def decodeStateAfter (f : EIA608Frame) (cc : Nat) : EIA608Frame :=
  match Decode f cc with
  | some p => p.1
  | none => f

/-- The legal roll-up depths. -/
def rollupSet (x : Int) : Prop := x = 0 ∨ x = 1 ∨ x = 2 ∨ x = 3 ∨ x = 4

/-- A unit that, relative to decoder state `f`, decodes as an
end-of-caption control: valid parity, classifies as control with command
word `0x142F`, and is not suppressed as a duplicate of the last unit. -/
def isEOCUnit (f : EIA608Frame) (cc : Nat) : Prop :=
  parityWord cc = cc ∧ isControl (cc &&& 0x7F7F) = true ∧
    ctrlCmd (cc &&& 0x7F7F) = 0x142F ∧ cc &&& 0x7F7F ≠ f.ccData

section Helpers

@[simp] lemma setBuf_active (f : EIA608Frame) (s : BufSel) (b : frameBuffer) :
    (setBuf f s b).active = f.active := by cases s <;> rfl

@[simp] lemma setBuf_ccData (f : EIA608Frame) (s : BufSel) (b : frameBuffer) :
    (setBuf f s b).ccData = f.ccData := by cases s <;> rfl

@[simp] lemma setBuf_row (f : EIA608Frame) (s : BufSel) (b : frameBuffer) :
    (setBuf f s b).row = f.row := by cases s <;> rfl

@[simp] lemma setBuf_col (f : EIA608Frame) (s : BufSel) (b : frameBuffer) :
    (setBuf f s b).col = f.col := by cases s <;> rfl

lemma setChar_fst_state (b : frameBuffer) (r c : Nat) (ch : frameBufferChar) :
    ((setChar b r c ch).1).state = b.state := by
  unfold setChar; split
  · split <;> rfl
  · rfl

lemma setChar_oob (b : frameBuffer) (r c : Nat) (ch : frameBufferChar)
    (h : ¬(r < Rows ∧ c < Cols)) : (setChar b r c ch).1 = b := by
  unfold setChar; rw [if_neg h]

lemma foldl_setChar_state (L : List Nat) (b : frameBuffer) (row : Nat) :
    (L.foldl (fun bb i => (setChar bb row i emptyChar).1) b).state = b.state := by
  induction L generalizing b with
  | nil => rfl
  | cons x xs ih => simpa [setChar_fst_state] using ih (setChar b row x emptyChar).1

lemma carriageReturn_some_state (b b' : frameBuffer) (row : Nat)
    (h : carriageReturn b row = some b') : b'.state = b.state := by
  unfold carriageReturn at h
  by_cases hg : uadd row (u64ofInt b.state.Rollup) ≥ Rows + 1 ∨
      uadd row (u64ofInt b.state.Rollup) = 0
  · rw [if_pos hg] at h
    cases h; rfl
  · rw [if_neg hg] at h
    split at h
    · cases h
    · split at h
      · cases h; rfl
      · cases h

lemma backspace_facts (f f2 : EIA608Frame) (h : backspace f = some f2) :
    f2.ccData = f.ccData ∧ f2.active = f.active ∧ f2.row = f.row ∧
    f2.front.state = f.front.state ∧ f2.back.state = f.back.state := by
  unfold backspace at h
  split at h
  · cases h
  · rename_i sel heq
    simp only [] at h
    simp only [Option.some.injEq] at h
    subst h
    cases sel <;>
      refine ⟨rfl, rfl, rfl, ?_, ?_⟩ <;>
        simp [setBuf, getBuf, setChar_fst_state]

lemma writeChar_facts (f f2 : EIA608Frame) (i : Nat) (wr : Bool)
    (h : writeChar f i = some (f2, wr)) :
    f2.ccData = f.ccData ∧ f2.active = f.active ∧ f2.row = f.row ∧
    f2.front.state = f.front.state ∧ f2.back.state = f.back.state := by
  unfold writeChar at h
  split at h
  · cases h
  · rename_i sel heq
    simp only [] at h
    simp only [Option.some.injEq, Prod.mk.injEq] at h
    obtain ⟨h1, _⟩ := h
    subst h1
    cases sel <;>
      refine ⟨rfl, rfl, rfl, ?_, ?_⟩ <;>
        simp [setBuf, getBuf, setChar_fst_state]

lemma getBuf_rollup_cases (f : EIA608Frame) (sel : BufSel) :
    (getBuf f sel).state.Rollup = f.front.state.Rollup ∨
      (getBuf f sel).state.Rollup = f.back.state.Rollup := by
  cases sel
  · exact Or.inl rfl
  · exact Or.inr rfl

/-- Per-step facts about `parseControl`, stated unconditionally so that
several claims can reuse them: the last-seen unit is untouched, the
active selector is only ever kept or pointed at a real buffer, the
cursor row is only kept or zeroed, and each buffer's roll-up depth is
either copied from one of the two buffers or set to a constant in 0..4. -/
lemma parseControl_step (f : EIA608Frame) (cc : Nat) (f1 : EIA608Frame) (r : Bool)
    (h : parseControl f cc = some (f1, r)) :
    f1.ccData = f.ccData ∧
    (f1.active = f.active ∨ f1.active = some BufSel.front ∨ f1.active = some BufSel.back) ∧
    (f1.row = f.row ∨ f1.row = 0) ∧
    (f1.front.state.Rollup = f.front.state.Rollup ∨
      f1.front.state.Rollup = f.back.state.Rollup ∨
      f1.front.state.Rollup = 0 ∨ f1.front.state.Rollup = 1 ∨
      f1.front.state.Rollup = 2 ∨ f1.front.state.Rollup = 3 ∨
      f1.front.state.Rollup = 4) ∧
    (f1.back.state.Rollup = f.front.state.Rollup ∨
      f1.back.state.Rollup = f.back.state.Rollup ∨
      f1.back.state.Rollup = 0 ∨ f1.back.state.Rollup = 1 ∨
      f1.back.state.Rollup = 2 ∨ f1.back.state.Rollup = 3 ∨
      f1.back.state.Rollup = 4) := by
  unfold parseControl at h
  simp only [] at h
  split at h
  -- resume direct captioning
  · simp only [Option.some.injEq, Prod.mk.injEq] at h
    obtain ⟨h1, _⟩ := h; subst h1
    refine ⟨rfl, ?_, ?_, ?_, ?_⟩ <;> simp [clearState, clear]
  -- erase display memory
  · simp only [Option.some.injEq, Prod.mk.injEq] at h
    obtain ⟨h1, _⟩ := h; subst h1
    refine ⟨rfl, ?_, ?_, ?_, ?_⟩ <;> simp [clearState, clear]
  -- roll up 2
  · simp only [Option.some.injEq, Prod.mk.injEq] at h
    obtain ⟨h1, _⟩ := h; subst h1
    refine ⟨rfl, ?_, ?_, ?_, ?_⟩ <;> simp [clearState, clear]
  -- roll up 3
  · simp only [Option.some.injEq, Prod.mk.injEq] at h
    obtain ⟨h1, _⟩ := h; subst h1
    refine ⟨rfl, ?_, ?_, ?_, ?_⟩ <;> simp [clearState, clear]
  -- roll up 4
  · simp only [Option.some.injEq, Prod.mk.injEq] at h
    obtain ⟨h1, _⟩ := h; subst h1
    refine ⟨rfl, ?_, ?_, ?_, ?_⟩ <;> simp [clearState, clear]
  -- carriage return
  · split at h
    · simp only [Option.some.injEq, Prod.mk.injEq] at h
      obtain ⟨h1, _⟩ := h; subst h1
      refine ⟨rfl, ?_, ?_, ?_, ?_⟩ <;> simp [clearState, clear]
    · rename_i sel _
      split at h
      · cases h
      · rename_i b hcr
        simp only [Option.some.injEq, Prod.mk.injEq] at h
        obtain ⟨h1, _⟩ := h; subst h1
        have hst := carriageReturn_some_state _ _ _ hcr
        refine ⟨by simp, Or.inl (by simp), Or.inl (by simp), ?_, ?_⟩
        · cases sel
          · left
            simpa [setBuf, getBuf] using congrArg EIA608State.Rollup hst
          · left; rfl
        · cases sel
          · right; left; rfl
          · right; left
            simpa [setBuf, getBuf] using congrArg EIA608State.Rollup hst
  -- backspace
  · split at h
    · simp only [Option.some.injEq, Prod.mk.injEq] at h
      obtain ⟨h1, _⟩ := h; subst h1
      refine ⟨rfl, ?_, ?_, ?_, ?_⟩ <;> simp [clearState, clear]
    · cases hbs : backspace f with
      | none => rw [hbs] at h; cases h
      | some f2 =>
        rw [hbs] at h
        simp only [Option.some.injEq, Prod.mk.injEq] at h
        obtain ⟨h1, _⟩ := h; subst h1
        obtain ⟨hc, ha, hr, hfs, hbss⟩ := backspace_facts f f2 hbs
        exact ⟨hc, Or.inl ha, Or.inl hr,
          Or.inl (congrArg EIA608State.Rollup hfs),
          Or.inr (Or.inl (congrArg EIA608State.Rollup hbss))⟩
  -- delete to end of row
  · split at h
    · simp only [Option.some.injEq, Prod.mk.injEq] at h
      obtain ⟨h1, _⟩ := h; subst h1
      refine ⟨rfl, ?_, ?_, ?_, ?_⟩ <;> simp [clearState, clear]
    · rename_i sel _
      simp only [Option.some.injEq, Prod.mk.injEq] at h
      obtain ⟨h1, _⟩ := h; subst h1
      refine ⟨by simp, Or.inl (by simp), Or.inl (by simp), ?_, ?_⟩
      · cases sel
        · left
          simpa [setBuf, getBuf] using
            congrArg EIA608State.Rollup
              (foldl_setChar_state (List.range' f.col (Cols - f.col)) f.front f.row)
        · left; rfl
      · cases sel
        · right; left; rfl
        · right; left
          simpa [setBuf, getBuf] using
            congrArg EIA608State.Rollup
              (foldl_setChar_state (List.range' f.col (Cols - f.col)) f.back f.row)
  -- resume caption loading
  · simp only [Option.some.injEq, Prod.mk.injEq] at h
    obtain ⟨h1, _⟩ := h; subst h1
    refine ⟨rfl, ?_, ?_, ?_, ?_⟩ <;> simp [clearState, clear]
  -- erase non displayed memory
  · simp only [Option.some.injEq, Prod.mk.injEq] at h
    obtain ⟨h1, _⟩ := h; subst h1
    refine ⟨rfl, ?_, ?_, ?_, ?_⟩ <;> simp [clearState, clear]
  -- end of caption
  · simp only [Option.some.injEq, Prod.mk.injEq] at h
    obtain ⟨h1, _⟩ := h; subst h1
    refine ⟨rfl, ?_, ?_, ?_, ?_⟩ <;> simp [clearState, clear]
  -- tab offsets
  · split at h
    · simp only [Option.some.injEq, Prod.mk.injEq] at h
      obtain ⟨h1, _⟩ := h; subst h1
      refine ⟨rfl, ?_, ?_, ?_, ?_⟩ <;> simp [clearState, clear]
    · rename_i sel _
      simp only [Option.some.injEq, Prod.mk.injEq] at h
      obtain ⟨h1, _⟩ := h; subst h1
      refine ⟨by simp, Or.inl (by simp), Or.inl (by simp), ?_, ?_⟩
      · cases sel
        · left; rfl
        · left; rfl
      · cases sel
        · right; left; rfl
        · right; left; rfl
  · split at h
    · simp only [Option.some.injEq, Prod.mk.injEq] at h
      obtain ⟨h1, _⟩ := h; subst h1
      refine ⟨rfl, ?_, ?_, ?_, ?_⟩ <;> simp [clearState, clear]
    · rename_i sel _
      simp only [Option.some.injEq, Prod.mk.injEq] at h
      obtain ⟨h1, _⟩ := h; subst h1
      refine ⟨by simp, Or.inl (by simp), Or.inl (by simp), ?_, ?_⟩
      · cases sel
        · left; rfl
        · left; rfl
      · cases sel
        · right; left; rfl
        · right; left; rfl
  · split at h
    · simp only [Option.some.injEq, Prod.mk.injEq] at h
      obtain ⟨h1, _⟩ := h; subst h1
      refine ⟨rfl, ?_, ?_, ?_, ?_⟩ <;> simp [clearState, clear]
    · rename_i sel _
      simp only [Option.some.injEq, Prod.mk.injEq] at h
      obtain ⟨h1, _⟩ := h; subst h1
      refine ⟨by simp, Or.inl (by simp), Or.inl (by simp), ?_, ?_⟩
      · cases sel
        · left; rfl
        · left; rfl
      · cases sel
        · right; left; rfl
        · right; left; rfl
  -- default
  · simp only [Option.some.injEq, Prod.mk.injEq] at h
    obtain ⟨h1, _⟩ := h; subst h1
    refine ⟨rfl, ?_, ?_, ?_, ?_⟩ <;> simp [clearState, clear]

lemma getD_le_of_all {L : List Nat} {m d : Nat} (hL : ∀ x ∈ L, x ≤ m) (hd : d ≤ m)
    (i : Nat) : L.getD i d ≤ m := by
  induction L generalizing i with
  | nil => simpa [List.getD] using hd
  | cons a t ih =>
    cases i with
    | zero => exact hL a (by simp)
    | succ j =>
      simpa [List.getD] using ih (fun x hx => hL x (by simp [hx])) j

lemma rowMap_getD_le (i : Nat) : rowMap.getD i 0 ≤ 15 := by
  refine getD_le_of_all ?_ (by omega) i
  intro x hx
  simp only [rowMap, Rows, List.mem_cons, List.not_mem_nil, or_false] at hx
  rcases hx with h | h | h | h | h | h | h | h | h | h | h | h | h | h | h | h <;> omega

lemma parsePreamble_facts (f f2 : EIA608Frame) (cc : Nat)
    (h : parsePreamble f cc = some f2) :
    f2.ccData = f.ccData ∧ f2.active = f.active ∧ f2.row ≤ 15 ∧
    f2.front.state.Rollup = f.front.state.Rollup ∧
    f2.back.state.Rollup = f.back.state.Rollup := by
  unfold parsePreamble at h
  split at h
  · cases h
  · rename_i sel heq
    simp only [] at h
    simp only [Option.some.injEq] at h
    subst h
    cases sel <;>
      refine ⟨rfl, rfl,
        rowMap_getD_le (((0x0700 &&& cc) >>> 7) ||| ((0x0020 &&& cc) >>> 5)), ?_, ?_⟩ <;>
      simp [setBuf, getBuf]

lemma parseMidRowChange_facts (f : EIA608Frame) (cc : Nat) :
    (parseMidRowChange f cc).ccData = f.ccData ∧
    (parseMidRowChange f cc).active = f.active ∧
    (parseMidRowChange f cc).row = f.row ∧
    (parseMidRowChange f cc).front.state = f.front.state ∧
    (parseMidRowChange f cc).back.state = f.back.state := by
  unfold parseMidRowChange
  split <;> exact ⟨rfl, rfl, rfl, rfl, rfl⟩

lemma parseText_facts (f f2 : EIA608Frame) (cc : Nat) (h : parseText f cc = some f2) :
    f2.ccData = f.ccData ∧ f2.active = f.active ∧ f2.row = f.row ∧
    f2.front.state = f.front.state ∧ f2.back.state = f.back.state := by
  unfold parseText at h
  split at h
  · -- basic North American pair
    cases hw : writeChar f (usub16 (cc >>> 8) 0x20) with
    | none => rw [hw] at h; cases h
    | some p =>
      obtain ⟨fa, wa⟩ := p
      rw [hw] at h
      simp only [] at h
      obtain ⟨h1a, h2a, h3a, h4a, h5a⟩ := writeChar_facts f fa _ _ hw
      split at h
      · cases hw2 : writeChar fa (usub16 (cc &&& 0x00FF) 0x20) with
        | none => rw [hw2] at h; cases h
        | some p2 =>
          obtain ⟨fb, wb⟩ := p2
          rw [hw2] at h
          simp only [Option.some.injEq] at h
          subst h
          obtain ⟨g1, g2, g3, g4, g5⟩ := writeChar_facts fa fb _ _ hw2
          exact ⟨g1.trans h1a, g2.trans h2a, g3.trans h3a, g4.trans h4a, g5.trans h5a⟩
      · simp only [Option.some.injEq] at h
        subst h
        exact ⟨h1a, h2a, h3a, h4a, h5a⟩
  · simp only [] at h
    split at h
    · -- special North American character
      cases hw : writeChar f (uadd16 (usub16 (cc &&& 0xF7FF) 0x1130) 0x60) with
      | none => rw [hw] at h; cases h
      | some p =>
        obtain ⟨fa, wa⟩ := p
        rw [hw] at h
        simp only [Option.some.injEq] at h
        subst h
        exact writeChar_facts f fa _ _ hw
    · split at h
      · -- extended western European, Spanish/Misc/French
        cases hb : backspace f with
        | none => rw [hb] at h; cases h
        | some fa =>
          rw [hb] at h
          simp only [] at h
          obtain ⟨h1a, h2a, h3a, h4a, h5a⟩ := backspace_facts f fa hb
          cases hw : writeChar fa (uadd16 (usub16 (cc &&& 0xF7FF) 0x1220) 0x70) with
          | none => rw [hw] at h; cases h
          | some p =>
            obtain ⟨fb, wb⟩ := p
            rw [hw] at h
            simp only [Option.some.injEq] at h
            subst h
            obtain ⟨g1, g2, g3, g4, g5⟩ := writeChar_facts fa fb _ _ hw
            exact ⟨g1.trans h1a, g2.trans h2a, g3.trans h3a, g4.trans h4a, g5.trans h5a⟩
      · split at h
        · -- extended western European, Portuguese/German/Danish
          cases hb : backspace f with
          | none => rw [hb] at h; cases h
          | some fa =>
            rw [hb] at h
            simp only [] at h
            obtain ⟨h1a, h2a, h3a, h4a, h5a⟩ := backspace_facts f fa hb
            cases hw : writeChar fa (uadd16 (usub16 (cc &&& 0xF7FF) 0x1320) 0x90) with
            | none => rw [hw] at h; cases h
            | some p =>
              obtain ⟨fb, wb⟩ := p
              rw [hw] at h
              simp only [Option.some.injEq] at h
              subst h
              obtain ⟨g1, g2, g3, g4, g5⟩ := writeChar_facts fa fb _ _ hw
              exact ⟨g1.trans h1a, g2.trans h2a, g3.trans h3a, g4.trans h4a, g5.trans h5a⟩
        · simp only [Option.some.injEq] at h
          subst h
          exact ⟨rfl, rfl, rfl, rfl, rfl⟩

lemma isControl_ne_zero {s : Nat} (h : isControl s = true) : s ≠ 0 := by
  rintro rfl; revert h; decide

lemma isSpecialNA_ne_zero {s : Nat} (h : isSpecialNA s = true) : s ≠ 0 := by
  rintro rfl; revert h; decide

lemma rollupSet_closed {x y z : Int}
    (hx : rollupSet x) (hy : rollupSet y)
    (hz : z = x ∨ z = y ∨ z = 0 ∨ z = 1 ∨ z = 2 ∨ z = 3 ∨ z = 4) : rollupSet z := by
  unfold rollupSet at *
  rcases hz with h | h | h | h | h | h | h <;> subst h <;> tauto

/-- Per-step facts about `Decode`, combining the per-handler facts:
either the step was one of the early drops (state untouched, not ready)
or the last-seen unit is the parity-stripped input; the active selector
is only kept or set to a real buffer; a row bound and legal roll-up
depths are preserved. -/
lemma Decode_step (f f1 : EIA608Frame) (cc : Nat) (r : Bool)
    (h : Decode f cc = some (f1, r)) :
    ((f1 = f ∧ r = false ∧
        (parityWord cc ≠ cc ∨ cc &&& 0x7F7F = 0 ∨ cc &&& 0x7F7F = f.ccData)) ∨
      f1.ccData = cc &&& 0x7F7F) ∧
    (f1.active = f.active ∨ f1.active = some BufSel.front ∨
      f1.active = some BufSel.back) ∧
    (f.row ≤ 15 → f1.row ≤ 15) ∧
    (rollupSet f.front.state.Rollup ∧ rollupSet f.back.state.Rollup →
      rollupSet f1.front.state.Rollup ∧ rollupSet f1.back.state.Rollup) := by
  unfold Decode at h
  by_cases hp : parityWord cc ≠ cc
  · rw [if_pos hp] at h
    simp only [Option.some.injEq, Prod.mk.injEq] at h
    obtain ⟨h1, h2⟩ := h; subst h1
    exact ⟨Or.inl ⟨rfl, h2.symm, Or.inl hp⟩, Or.inl rfl, fun hh => hh, fun hh => hh⟩
  · rw [if_neg hp] at h
    simp only [] at h
    by_cases hz : cc &&& 0x7F7F = 0
    · rw [if_pos hz] at h
      simp only [Option.some.injEq, Prod.mk.injEq] at h
      obtain ⟨h1, h2⟩ := h; subst h1
      exact ⟨Or.inl ⟨rfl, h2.symm, Or.inr (Or.inl hz)⟩, Or.inl rfl,
        fun hh => hh, fun hh => hh⟩
    · rw [if_neg hz] at h
      by_cases hdup : ((isSpecialNA (cc &&& 0x7F7F) || isControl (cc &&& 0x7F7F)) = true ∧
          cc &&& 0x7F7F = f.ccData)
      · rw [if_pos hdup] at h
        simp only [Option.some.injEq, Prod.mk.injEq] at h
        obtain ⟨h1, h2⟩ := h; subst h1
        exact ⟨Or.inl ⟨rfl, h2.symm, Or.inr (Or.inr hdup.2)⟩, Or.inl rfl,
          fun hh => hh, fun hh => hh⟩
      · rw [if_neg hdup] at h
        by_cases hctl : isControl (cc &&& 0x7F7F) = true
        · rw [if_pos hctl] at h
          obtain ⟨hc, ha, hr, hfr, hbr⟩ :=
            parseControl_step { f with ccData := cc &&& 0x7F7F } (cc &&& 0x7F7F) f1 r h
          refine ⟨Or.inr hc, ?_, ?_, ?_⟩
          · simpa using ha
          · intro hrow
            rcases hr with h' | h'
            · simp [h']; omega
            · simp [h']
          · rintro ⟨h2, h3⟩
            exact ⟨rollupSet_closed h2 h3 (by simpa using hfr),
              rollupSet_closed h2 h3 (by simpa using hbr)⟩
        · rw [if_neg hctl] at h
          by_cases hact : ({ f with ccData := cc &&& 0x7F7F } : EIA608Frame).active = none
          · rw [if_pos hact] at h
            simp only [Option.some.injEq, Prod.mk.injEq] at h
            obtain ⟨h1, h2⟩ := h; subst h1
            exact ⟨Or.inr rfl, Or.inl rfl, fun hh => hh, fun hh => hh⟩
          · rw [if_neg hact] at h
            by_cases hpre : isPreamble (cc &&& 0x7F7F) = true
            · rw [if_pos hpre] at h
              cases hpp : parsePreamble { f with ccData := cc &&& 0x7F7F } (cc &&& 0x7F7F) with
              | none => rw [hpp] at h; cases h
              | some f2 =>
                rw [hpp] at h
                simp only [Option.some.injEq, Prod.mk.injEq] at h
                obtain ⟨h1, h2⟩ := h; subst h1
                obtain ⟨hc, ha, hr, hfr, hbr⟩ := parsePreamble_facts _ f2 _ hpp
                refine ⟨Or.inr hc, Or.inl (by simpa using ha), fun _ => hr, ?_⟩
                rintro ⟨h2, h3⟩
                constructor
                · simpa [hfr] using h2
                · simpa [hbr] using h3
            · rw [if_neg hpre] at h
              by_cases hmid : isMidRowChange (cc &&& 0x7F7F) = true
              · rw [if_pos hmid] at h
                simp only [Option.some.injEq, Prod.mk.injEq] at h
                obtain ⟨h1, h2⟩ := h; subst h1
                obtain ⟨hc, ha, hr, hfr, hbr⟩ :=
                  parseMidRowChange_facts { f with ccData := cc &&& 0x7F7F } (cc &&& 0x7F7F)
                refine ⟨Or.inr hc, Or.inl (by simpa using ha), ?_, ?_⟩
                · intro hrow; simpa [hr] using hrow
                · rintro ⟨h2, h3⟩
                  constructor
                  · simpa [congrArg EIA608State.Rollup hfr] using h2
                  · simpa [congrArg EIA608State.Rollup hbr] using h3
              · rw [if_neg hmid] at h
                by_cases htxt : (isBasicNA (cc &&& 0x7F7F) ||
                    isSpecialNA (cc &&& 0x7F7F) || isWesternEu (cc &&& 0x7F7F)) = true
                · rw [if_pos htxt] at h
                  cases hpt : parseText { f with ccData := cc &&& 0x7F7F } (cc &&& 0x7F7F) with
                  | none => rw [hpt] at h; cases h
                  | some f2 =>
                    rw [hpt] at h
                    simp only [] at h
                    cases hab : activeBuf f2 with
                    | none => rw [hab] at h; cases h
                    | some b =>
                      rw [hab] at h
                      simp only [Option.some.injEq, Prod.mk.injEq] at h
                      obtain ⟨h1, h2⟩ := h; subst h1
                      obtain ⟨hc, ha, hr, hfr, hbr⟩ := parseText_facts _ f2 _ hpt
                      refine ⟨Or.inr hc, Or.inl (by simpa using ha), ?_, ?_⟩
                      · intro hrow; simpa [hr] using hrow
                      · rintro ⟨h2, h3⟩
                        constructor
                        · simpa [congrArg EIA608State.Rollup hfr] using h2
                        · simpa [congrArg EIA608State.Rollup hbr] using h3
                · rw [if_neg htxt] at h
                  simp only [Option.some.injEq, Prod.mk.injEq] at h
                  obtain ⟨h1, h2⟩ := h; subst h1
                  exact ⟨Or.inr rfl, Or.inl rfl, fun hh => hh, fun hh => hh⟩

end Helpers

/-- C1: the claim says the per-unit decode step never aborts — in
particular a carriage-return control received while the active buffer's
roll-up depth is 0 and the cursor row is positive must still complete.
This theorem evaluates `Decode` at exactly such a reachable state (resume
caption loading establishes the back buffer with `Rollup = 0`, a preamble
moves the cursor to row 4, then carriage return is decoded) and shows the
step aborts: the Go `uint` computation `n := rollups - 1` underflows to
2^64-1 and the copy loop indexes `b.data` out of range, a runtime panic
(`none` in this embedding).  The code contradicts the spec here. -/
theorem decode_aborts_on_carriage_return_with_zero_rollup :
    runDecode freshFrame [0x9420, 0x1040, 0x94AD] = none := by rfl

/-- C8: every entry of the 128-entry parity table stores its index in the
low 7 bits with the parity bit chosen so that the total population count
of the stored byte is odd; consequently per-byte validation
(`parityByte b = b`) accepts a byte exactly when its stored high bit
matches the odd parity of its low 7 bits (i.e. is set exactly when the
low 7 bits have even population count). -/
theorem parity_table_odd_parity :
    (∀ v, v < 128 → parityTable v &&& 0x7F = v ∧ bitsOn (parityTable v) 8 % 2 = 1) ∧
    (∀ b, b < 256 →
      (parityByte b = b ↔ b.testBit 7 = decide (bitsOn b 7 % 2 = 0))) := by
  constructor
  · decide
  · decide

/-- Witness for C8 at `v = 0x14` and `b = 0x94`. -/
theorem parity_table_odd_parity_witness :
    ((20 : Nat) < 128 ∧ parityTable 20 &&& 0x7F = 20 ∧ bitsOn (parityTable 20) 8 % 2 = 1) ∧
    ((148 : Nat) < 256 ∧
      (parityByte 148 = 148 ↔ (148 : Nat).testBit 7 = decide (bitsOn 148 7 % 2 = 0))) :=
  ⟨⟨by decide, parity_table_odd_parity.1 20 (by decide)⟩,
   ⟨by decide, parity_table_odd_parity.2 148 (by decide)⟩⟩

/-- C9: CEA-708 envelope extraction fails with a structural error and
produces no units when the buffer is shorter than the minimum header
size (4 bytes, so in particular a buffer of length 1), when too few
bytes remain for the caption-data header, or (contrapositively stated)
any successful parse has exactly the declared number of 3-byte entries;
and whenever an error is reported the unit list is empty (no partial
result). -/
theorem cea708_structural_error_no_partial_result :
    (∀ data : List Nat, data.length < 4 →
      CEA708ToCCData data = ([], some "insuffucient data to detect payload size")) ∧
    (∀ d : List Nat, d.length ≤ 2 →
      parseCEA708UserData d = Except.error "insufficient cea708 user data") ∧
    (∀ (d : List Nat) (ud : cea708_user_data),
      parseCEA708UserData d = Except.ok ud → ud.cc_data.length = ud.cc_count) ∧
    (∀ (data : List Nat) (e : String),
      (CEA708ToCCData data).2 = some e → (CEA708ToCCData data).1 = []) := by
  refine ⟨?_, ?_, ?_, ?_⟩
  · intro data hlen
    unfold CEA708ToCCData parseCEA708
    rw [if_pos hlen]
  · intro d hlen
    unfold parseCEA708UserData
    rw [if_pos hlen]
  · intro d ud h
    unfold parseCEA708UserData at h
    split at h
    · cases h
    · simp only [] at h
      split at h
      · cases h
      · rename_i hne
        simp only [Except.ok.injEq] at h
        subst h
        simpa using not_ne_iff.mp hne
  · intro data e h
    unfold CEA708ToCCData at h ⊢
    cases hp : parseCEA708 data with
    | error e2 => rfl
    | ok ud => rw [hp] at h; simp at h

/-- Witness for C9 at the length-1 buffer `[0]` (Scenario D). -/
theorem cea708_structural_error_witness :
    ([(0 : Nat)].length < 4) ∧
    CEA708ToCCData [0] = ([], some "insuffucient data to detect payload size") :=
  ⟨by decide, cea708_structural_error_no_partial_result.1 [0] (by decide)⟩

/-- C10: before any mode-establishing control code (no active buffer),
decoding a carriage-return, backspace, delete-to-end-of-row, or
tab-offset-1/2/3 control unit is a complete no-op except for the
recorded last-seen unit: the result state is the input state with only
`ccData` replaced by the stripped unit, and the step reports
`(false, nil)`. -/
theorem cursor_controls_noop_without_active_buffer (f : EIA608Frame) (cc : Nat)
    (hact : f.active = none) (hp : parityWord cc = cc)
    (hctl : isControl (cc &&& 0x7F7F) = true)
    (hcmd : ctrlCmd (cc &&& 0x7F7F) = 0x142D ∨ ctrlCmd (cc &&& 0x7F7F) = 0x1421 ∨
      ctrlCmd (cc &&& 0x7F7F) = 0x1424 ∨ ctrlCmd (cc &&& 0x7F7F) = 0x1721 ∨
      ctrlCmd (cc &&& 0x7F7F) = 0x1722 ∨ ctrlCmd (cc &&& 0x7F7F) = 0x1723) :
    Decode f cc = some ({ f with ccData := cc &&& 0x7F7F }, false) := by
  unfold Decode
  rw [if_neg (by simpa using hp)]
  simp only []
  rw [if_neg (isControl_ne_zero hctl)]
  by_cases hdup : ((isSpecialNA (cc &&& 0x7F7F) || isControl (cc &&& 0x7F7F)) = true ∧
      cc &&& 0x7F7F = f.ccData)
  · rw [if_pos hdup]
    have hfe : ({ f with ccData := cc &&& 0x7F7F } : EIA608Frame) = f := by
      rw [hdup.2]
    rw [hfe]
  · rw [if_neg hdup]
    rw [if_pos hctl]
    rcases hcmd with h | h | h | h | h | h <;>
      simp [parseControl, h, hact]

/-- Witness for C10: carriage return (`0x94AD`, stripped `0x142D`) on a
fresh decoder. -/
theorem cursor_controls_noop_witness :
    freshFrame.active = none ∧ parityWord 0x94AD = 0x94AD ∧
    isControl (0x94AD &&& 0x7F7F) = true ∧ ctrlCmd (0x94AD &&& 0x7F7F) = 0x142D ∧
    Decode freshFrame 0x94AD =
      some ({ freshFrame with ccData := 0x94AD &&& 0x7F7F }, false) :=
  ⟨rfl, by decide, by decide, by decide,
    cursor_controls_noop_without_active_buffer freshFrame 0x94AD rfl (by decide)
      (by decide) (Or.inl (by decide))⟩

/-- C4: for a unit that classifies as control or special-North-American
after parity stripping, decoding it twice in a row causes at most one
observable state change: if the first `Decode` completed with state
`f1`, the second `Decode` of the same unit returns `(false, nil)` and
leaves the state exactly `f1` (duplicate suppression). -/
theorem duplicate_control_second_decode_noop (f : EIA608Frame) (cc : Nat)
    (hp : parityWord cc = cc)
    (hcs : isControl (cc &&& 0x7F7F) = true ∨ isSpecialNA (cc &&& 0x7F7F) = true)
    (f1 : EIA608Frame) (r1 : Bool) (h : Decode f cc = some (f1, r1)) :
    Decode f1 cc = some (f1, false) := by
  have hz : cc &&& 0x7F7F ≠ 0 := by
    rcases hcs with h' | h'
    · exact isControl_ne_zero h'
    · exact isSpecialNA_ne_zero h'
  have hor : (isSpecialNA (cc &&& 0x7F7F) || isControl (cc &&& 0x7F7F)) = true := by
    rcases hcs with h' | h' <;> simp [h']
  have hcc : f1.ccData = cc &&& 0x7F7F := by
    rcases (Decode_step f f1 cc r1 h).1 with ⟨hfe, _, hdrop⟩ | hcc
    · subst hfe
      rcases hdrop with h' | h' | h'
      · exact absurd hp h'
      · exact absurd h' hz
      · exact h'.symm
    · exact hcc
  unfold Decode
  rw [if_neg (by simpa using hp)]
  simp only []
  rw [if_neg hz]
  rw [if_pos ⟨hor, hcc.symm⟩]

/-- Witness for C4: resume caption loading (`0x9420`) decoded twice from
a fresh decoder. -/
theorem duplicate_control_second_decode_noop_witness :
    parityWord 0x9420 = 0x9420 ∧ isControl (0x9420 &&& 0x7F7F) = true ∧
    Decode (decodeStateAfter freshFrame 0x9420) 0x9420 =
      some (decodeStateAfter freshFrame 0x9420, false) :=
  ⟨by decide, by decide,
    duplicate_control_second_decode_noop freshFrame 0x9420 (by decide)
      (Or.inl (by decide)) (decodeStateAfter freshFrame 0x9420) false rfl⟩

/-- C7: `StateSnapshot` returns `Mode = Unknown` (with all other fields
zero/empty) exactly when no control code has ever selected an active
buffer (`active` is `none` on a fresh decoder, only control codes ever
set it, and no step ever clears it); otherwise the mode is `PaintOn`
exactly when the front (displayed) buffer's roll-up depth is positive
and `PopOn` otherwise, and the reported row is 15 minus the internal
bottom-up configured row. -/
theorem snapshot_mode_row_characterization :
    (∀ f : EIA608Frame,
      ((StateSnapshot f).Mode = Mode608.Unknown ↔ f.active = none) ∧
      (f.active = none → StateSnapshot f =
        { Mode := Mode608.Unknown, Rollup := 0, Row := 0, Col := 0, Content := [] }) ∧
      (f.active ≠ none →
        (StateSnapshot f).Mode =
          (if 0 < f.front.state.Rollup then Mode608.PaintOn else Mode608.PopOn) ∧
        (StateSnapshot f).Row = (Rows : Int) - f.front.state.Row)) ∧
    freshFrame.active = none ∧
    (∀ (f f1 : EIA608Frame) (cc : Nat) (r1 : Bool), Decode f cc = some (f1, r1) →
      f.active ≠ none → f1.active ≠ none) := by
  refine ⟨?_, rfl, ?_⟩
  · intro f
    cases hact : f.active with
    | none =>
      refine ⟨?_, ?_, ?_⟩
      · simp [StateSnapshot, hact, zeroState]
      · intro _
        simp [StateSnapshot, hact, zeroState]
      · intro hne
        exact absurd rfl hne
    | some sel =>
      refine ⟨?_, ?_, ?_⟩
      · constructor
        · intro hm
          exfalso
          unfold StateSnapshot at hm
          rw [hact] at hm
          simp only [] at hm
          by_cases hru : 0 < f.front.state.Rollup
          · rw [if_pos hru] at hm; cases hm
          · rw [if_neg hru] at hm; cases hm
        · intro hno; cases hno
      · intro hno; cases hno
      · intro _
        constructor
        · unfold StateSnapshot
          rw [hact]
        · unfold StateSnapshot
          rw [hact]
  · intro f f1 cc r1 h hne
    rcases (Decode_step f f1 cc r1 h).2.1 with ha | ha | ha <;> rw [ha]
    · exact hne
    · exact Option.some_ne_none BufSel.front
    · exact Option.some_ne_none BufSel.back

/-- Witness for C7: the fresh decoder snapshot is the Unknown/zero one,
and after resume caption loading (an active buffer exists, front roll-up
is 0) the reported mode is `PopOn` and the reported row is 15. -/
theorem snapshot_mode_row_witness :
    freshFrame.active = none ∧
    StateSnapshot freshFrame =
      { Mode := Mode608.Unknown, Rollup := 0, Row := 0, Col := 0, Content := [] } ∧
    (decodeStateAfter freshFrame 0x9420).active ≠ none ∧
    (StateSnapshot (decodeStateAfter freshFrame 0x9420)).Mode =
      (if 0 < (decodeStateAfter freshFrame 0x9420).front.state.Rollup
        then Mode608.PaintOn else Mode608.PopOn) ∧
    (StateSnapshot (decodeStateAfter freshFrame 0x9420)).Row =
      (Rows : Int) - (decodeStateAfter freshFrame 0x9420).front.state.Row :=
  ⟨rfl, (snapshot_mode_row_characterization.1 freshFrame).2.1 rfl,
    by decide,
    ((snapshot_mode_row_characterization.1 (decodeStateAfter freshFrame 0x9420)).2.2
      (by decide)).1,
    ((snapshot_mode_row_characterization.1 (decodeStateAfter freshFrame 0x9420)).2.2
      (by decide)).2⟩

/-- C6 (amended): every decoder state reachable by a sequence of
`Decode` calls from a fresh decoder has live cursor row in [0,15]
(row = 15 itself is reachable, see the counterexample) and both
buffers' `RollupDepth` in {0,1,2,3,4}.  The claimed strict bounds
row < 15 and col < 32 do not hold on the code: a preamble whose row
field selects `rowMap[1] = 15` sets the cursor row to 15, and character
writes move the cursor column to 32 (tab offsets can push it further);
the live cursor column is unbounded over reachable states. -/
theorem reachable_row_le_15_and_rollup_legal :
    ∀ (l : List Nat) (f : EIA608Frame), runDecode freshFrame l = some f →
      f.row ≤ 15 ∧ rollupSet f.front.state.Rollup ∧ rollupSet f.back.state.Rollup := by
  have step : ∀ (l : List Nat) (g f : EIA608Frame),
      g.row ≤ 15 → rollupSet g.front.state.Rollup → rollupSet g.back.state.Rollup →
      runDecode g l = some f →
      f.row ≤ 15 ∧ rollupSet f.front.state.Rollup ∧ rollupSet f.back.state.Rollup := by
    intro l
    induction l with
    | nil =>
      intro g f h1 h2 h3 h
      unfold runDecode at h
      simp only [Option.some.injEq] at h
      subst h
      exact ⟨h1, h2, h3⟩
    | cons c rest ih =>
      intro g f h1 h2 h3 h
      unfold runDecode at h
      cases hd : Decode g c with
      | none => rw [hd] at h; cases h
      | some p =>
        obtain ⟨g1, r⟩ := p
        rw [hd] at h
        simp only [] at h
        obtain ⟨_, _, hrow, hrl⟩ := Decode_step g g1 c r hd
        exact ih g1 f (hrow h1) (hrl ⟨h2, h3⟩).1 (hrl ⟨h2, h3⟩).2 h
  intro l f h
  exact step l freshFrame f (by decide) (Or.inl rfl) (Or.inl rfl) h

/-- Counterexample for C6 as stated: the decode sequence 0x9420 (resume
caption loading) followed by the preamble 0x10E0 reaches a state with
live cursor row 15 (outside the claimed [0,15)), and 0x9420 followed by
sixteen basic-text pairs 0xC1C1 ("AA") reaches a state with live cursor
column 32 (outside the claimed [0,32)). -/
theorem reachable_row_15_and_col_32 :
    (runDecode freshFrame [0x9420, 0x10E0]).map (fun f => f.row) = some 15 ∧
    (runDecode freshFrame (0x9420 :: List.replicate 16 0xC1C1)).map
      (fun f => f.col) = some 32 := by
  exact ⟨rfl, rfl⟩

/-- Witness for C6 (amended) at the one-unit trace `[0x9420]`. -/
theorem reachable_row_le_15_and_rollup_legal_witness :
    runDecode freshFrame [0x9420] = some (decodeStateAfter freshFrame 0x9420) ∧
    (decodeStateAfter freshFrame 0x9420).row ≤ 15 ∧
    rollupSet (decodeStateAfter freshFrame 0x9420).front.state.Rollup ∧
    rollupSet (decodeStateAfter freshFrame 0x9420).back.state.Rollup :=
  ⟨rfl, reachable_row_le_15_and_rollup_legal [0x9420]
    (decodeStateAfter freshFrame 0x9420) rfl⟩

/-- The concrete state used in the C5 counterexample: an active back
buffer with the live cursor at the last column (row 0, column 31). -/
def lastColFrame : EIA608Frame :=
  { freshFrame with active := some BufSel.back, col := 31 }

/-- Counterexample for C5 as stated: starting with the cursor at column
31, decoding the basic-text unit 0xC180 (one character, `charMap` index
0x21 = code point 65) writes at column 31 and moves the cursor to 32;
decoding a second unit 0xC280 (code point 66) is then dropped entirely:
the cell in the last column still holds 65, not 66, and the cursor sits
at 32, refuting both "clamped at column 31" and "further writes
overwrite the last column". -/
theorem write_past_last_column_dropped_not_overwritten :
    (runDecode lastColFrame [0xC180, 0xC280]).map
      (fun f => (f.col, (f.back.data 0 31).char)) = some (32, 65) := by rfl

/-- C5 (amended): a character write with an active buffer advances the
cursor column by one while it is below 32 and leaves it unchanged once
it equals 32 (so the cursor is clamped at column 32, one past the last
column, with no wraparound), and once the cursor has reached column 32
further character writes are dropped entirely — no cell of either
buffer changes — rather than overwriting column 31. -/
theorem writeChar_advances_and_clamps_at_32 (f : EIA608Frame) (i : Nat)
    (h : f.active ≠ none) :
    ∃ f' wr, writeChar f i = some (f', wr) ∧
      f'.col = (if f.col < Cols then f.col + 1 else f.col) ∧
      f'.row = f.row ∧ f'.active = f.active ∧
      (Cols ≤ f.col → f'.front.data = f.front.data ∧ f'.back.data = f.back.data) := by
  cases hact : f.active with
  | none => exact absurd hact h
  | some sel =>
    unfold writeChar
    rw [hact]
    simp only []
    refine ⟨_, _, rfl, ?_, ?_, ?_, ?_⟩
    · cases sel <;> simp [setBuf]
    · cases sel <;> simp [setBuf]
    · cases sel <;> simp [setBuf, hact]
    · intro hc
      have hCols : Cols = 32 := rfl
      have hno : ∀ (b : frameBuffer) ch, (setChar b f.row f.col ch).1 = b := by
        intro b ch
        refine setChar_oob _ _ _ _ ?_
        rintro ⟨_, hlt⟩
        omega
      cases sel <;> simp [setBuf, getBuf, hno]

/-- Witness for C5 (amended) at a state with the cursor already past the
last column (column 32): the write is dropped and the column stays 32. -/
theorem writeChar_clamp_witness :
    ({ freshFrame with active := some BufSel.back, col := 32 } : EIA608Frame).active ≠
      none ∧
    (∃ f' wr,
      writeChar { freshFrame with active := some BufSel.back, col := 32 } 33 =
        some (f', wr) ∧
      f'.col = (if ({ freshFrame with active := some BufSel.back, col := 32 } :
          EIA608Frame).col < Cols then 32 + 1 else 32) ∧
      f'.row = ({ freshFrame with active := some BufSel.back, col := 32 } :
        EIA608Frame).row ∧
      f'.active = ({ freshFrame with active := some BufSel.back, col := 32 } :
        EIA608Frame).active ∧
      (Cols ≤ ({ freshFrame with active := some BufSel.back, col := 32 } :
          EIA608Frame).col →
        f'.front.data = ({ freshFrame with active := some BufSel.back, col := 32 } :
          EIA608Frame).front.data ∧
        f'.back.data = ({ freshFrame with active := some BufSel.back, col := 32 } :
          EIA608Frame).back.data)) :=
  ⟨by decide,
    writeChar_advances_and_clamps_at_32
      { freshFrame with active := some BufSel.back, col := 32 } 33 (by decide)⟩

lemma uadd_small {a b : Nat} (h : a + b < U64) : uadd a b = a + b :=
  Nat.mod_eq_of_lt h

lemma usub_small {a b : Nat} (hb : b ≤ a) (ha : a < U64) : usub a b = a - b := by
  unfold usub
  have hU : U64 = 18446744073709551616 := rfl
  have hbU : b < U64 := lt_of_le_of_lt hb ha
  rw [Nat.mod_eq_of_lt hbU]
  have heq : a + (U64 - b) = (a - b) + U64 := by omega
  rw [heq, Nat.add_mod_right]
  exact Nat.mod_eq_of_lt (by omega)

/-- Invariant of the carriage-return copy loop: when all touched indices
are in range, running the remaining `rem` iterations starting at `i`
(the loop maintains `i + rem = n`) shifts the `rem` rows above `row` up
by one slot, each target receiving the caller's original row below it. -/
lemma crLoop_spec (row n : Nat) (hn : row + n ≤ 14) :
    ∀ (rem i : Nat) (d : Nat → Nat → frameBufferChar), i + rem = n →
      crLoop row n rem i d =
        some (fun r c => if row + 1 ≤ r ∧ r ≤ row + rem then d (r - 1) c else d r c) := by
  have hU : U64 = 18446744073709551616 := rfl
  intro rem
  induction rem with
  | zero =>
    intro i d hi
    unfold crLoop
    apply congrArg
    funext r c
    rw [if_neg (by omega)]
  | succ rem ih =>
    intro i d hi
    unfold crLoop
    have hadd : uadd row n = row + n := uadd_small (by omega)
    have hidx : usub (uadd row n) i = row + rem + 1 := by
      rw [hadd, usub_small (by omega) (by omega)]
      omega
    have hsrc : usub (usub (uadd row n) i) 1 = row + rem := by
      rw [hidx, usub_small (by omega) (by omega)]
      omega
    have hRows : Rows = 15 := rfl
    have hc1 : row + rem + 1 < Rows := by omega
    have hc2 : row + rem < Rows := by omega
    rw [hsrc, hidx, if_pos ⟨hc1, hc2⟩]
    rw [ih (i + 1) _ (by omega)]
    apply congrArg
    funext r c
    by_cases h1 : row + 1 ≤ r ∧ r ≤ row + rem
    · have hA : row + 1 ≤ r ∧ r ≤ row + (rem + 1) := ⟨h1.1, by omega⟩
      have hB : ¬(r - 1 = row + rem + 1) := by omega
      rw [if_pos h1, if_pos hA, if_neg hB]
    · by_cases h2 : r = row + rem + 1
      · have hA : row + 1 ≤ r ∧ r ≤ row + (rem + 1) := by omega
        have hr1 : r - 1 = row + rem := by omega
        rw [if_neg h1, if_pos h2, if_pos hA, hr1]
      · have hA : ¬(row + 1 ≤ r ∧ r ≤ row + (rem + 1)) := by omega
        rw [if_neg h1, if_neg h2, if_neg hA]

/-- C3: for a buffer with roll-up depth R >= 1 and cursor row `row`
(within the `uint` domain), the carriage-return shift is a no-op when
`row + R` is zero or exceeds the buffer height 15, and otherwise copies
row+k <- row+k-1 for k = R-1 down to 1, then clears row `row`, leaving
the embedded display state untouched. -/
theorem carriage_return_rollup_shift (b : frameBuffer) (row : Nat)
    (hR : 1 ≤ b.state.Rollup)
    (hbound : row + b.state.Rollup.toNat < U64) :
    ((row + b.state.Rollup.toNat = 0 ∨ Rows < row + b.state.Rollup.toNat) →
      carriageReturn b row = some b) ∧
    (row + b.state.Rollup.toNat ≤ Rows →
      ∃ b', carriageReturn b row = some b' ∧ b'.state = b.state ∧
        ∀ r c, b'.data r c =
          if r = row then emptyChar
          else if row + 1 ≤ r ∧ r ≤ row + b.state.Rollup.toNat - 1 then
            b.data (r - 1) c
          else b.data r c) := by
  have hU : U64 = 18446744073709551616 := rfl
  have hRows : Rows = 15 := rfl
  have h0 : (0 : Int) ≤ b.state.Rollup := by omega
  have hcast : (b.state.Rollup.toNat : Int) = b.state.Rollup := Int.toNat_of_nonneg h0
  have hR1 : 1 ≤ b.state.Rollup.toNat := by omega
  have hltU : b.state.Rollup < (U64 : Int) := by
    have h1 : (row + b.state.Rollup.toNat : Int) < (U64 : Int) := by exact_mod_cast hbound
    push_cast at h1
    omega
  have hu : u64ofInt b.state.Rollup = b.state.Rollup.toNat := by
    unfold u64ofInt
    rw [Int.emod_eq_of_lt h0 hltU]
  have huadd : uadd row (u64ofInt b.state.Rollup) = row + b.state.Rollup.toNat := by
    rw [hu]
    exact uadd_small hbound
  constructor
  · intro hcase
    unfold carriageReturn
    rw [huadd]
    have hcond : row + b.state.Rollup.toNat ≥ Rows + 1 ∨
        row + b.state.Rollup.toNat = 0 := by
      rcases hcase with h' | h'
      · exact Or.inr h'
      · exact Or.inl (by omega)
    rw [if_pos hcond]
  · intro hle
    have hn : usub (u64ofInt b.state.Rollup) 1 = b.state.Rollup.toNat - 1 := by
      rw [hu]
      exact usub_small hR1 (by omega)
    unfold carriageReturn
    rw [huadd]
    have hcond : ¬(row + b.state.Rollup.toNat ≥ Rows + 1 ∨
        row + b.state.Rollup.toNat = 0) := by omega
    rw [if_neg hcond, hn,
      crLoop_spec row (b.state.Rollup.toNat - 1) (by omega)
        (b.state.Rollup.toNat - 1) 0 b.data (by omega)]
    simp only []
    have hrow15 : row < Rows := by omega
    rw [if_pos hrow15]
    refine ⟨_, rfl, rfl, ?_⟩
    intro r c
    simp only []
    by_cases hr : r = row
    · rw [if_pos hr, if_pos hr]
    · rw [if_neg hr, if_neg hr]
      by_cases h1 : row + 1 ≤ r ∧ r ≤ row + (b.state.Rollup.toNat - 1)
      · have hA : row + 1 ≤ r ∧ r ≤ row + b.state.Rollup.toNat - 1 := by omega
        rw [if_pos h1, if_pos hA]
      · have hA : ¬(row + 1 ≤ r ∧ r ≤ row + b.state.Rollup.toNat - 1) := by omega
        rw [if_neg h1, if_neg hA]

/-- The concrete buffer used in the C3 witness: roll-up depth 2 with one
marked cell in row 3. -/
def rollup2Buffer : frameBuffer :=
  { emptyBuffer with
    state := { zeroState with Rollup := 2 },
    data := fun r c =>
      if r = 3 ∧ c = 0 then { underline := false, style := 0, char := 65 }
      else emptyChar }

/-- Witness for C3 at `rollup2Buffer` and cursor row 3 (shift case). -/
theorem carriage_return_rollup_shift_witness :
    1 ≤ rollup2Buffer.state.Rollup ∧
    3 + rollup2Buffer.state.Rollup.toNat < U64 ∧
    (3 + rollup2Buffer.state.Rollup.toNat ≤ Rows →
      ∃ b', carriageReturn rollup2Buffer 3 = some b' ∧
        b'.state = rollup2Buffer.state ∧
        ∀ r c, b'.data r c =
          if r = 3 then emptyChar
          else if 3 + 1 ≤ r ∧ r ≤ 3 + rollup2Buffer.state.Rollup.toNat - 1 then
            rollup2Buffer.data (r - 1) c
          else rollup2Buffer.data r c) :=
  ⟨by decide, by decide,
    (carriage_return_rollup_shift rollup2Buffer 3 (by decide) (by decide)).2⟩

lemma writeChar_front_of_back (f f2 : EIA608Frame) (i : Nat) (wr : Bool)
    (hact : f.active = some BufSel.back)
    (h : writeChar f i = some (f2, wr)) : f2.front = f.front := by
  unfold writeChar at h
  rw [hact] at h
  simp only [Option.some.injEq, Prod.mk.injEq] at h
  obtain ⟨h1, _⟩ := h
  subst h1
  rfl

lemma backspace_front_of_back (f f2 : EIA608Frame)
    (hact : f.active = some BufSel.back)
    (h : backspace f = some f2) : f2.front = f.front := by
  unfold backspace at h
  rw [hact] at h
  simp only [Option.some.injEq] at h
  subst h
  rfl

lemma parseText_front_of_back (f f2 : EIA608Frame) (cc : Nat)
    (hact : f.active = some BufSel.back)
    (h : parseText f cc = some f2) : f2.front = f.front := by
  unfold parseText at h
  split at h
  · cases hw : writeChar f (usub16 (cc >>> 8) 0x20) with
    | none => rw [hw] at h; cases h
    | some p =>
      obtain ⟨fa, wa⟩ := p
      rw [hw] at h
      simp only [] at h
      have hfa : fa.front = f.front := writeChar_front_of_back f fa _ wa hact hw
      have hfaact : fa.active = some BufSel.back :=
        (writeChar_facts f fa _ wa hw).2.1.trans hact
      split at h
      · cases hw2 : writeChar fa (usub16 (cc &&& 0x00FF) 0x20) with
        | none => rw [hw2] at h; cases h
        | some p2 =>
          obtain ⟨fb, wb⟩ := p2
          rw [hw2] at h
          simp only [Option.some.injEq] at h
          subst h
          exact (writeChar_front_of_back fa fb _ wb hfaact hw2).trans hfa
      · simp only [Option.some.injEq] at h
        subst h
        exact hfa
  · simp only [] at h
    split at h
    · cases hw : writeChar f (uadd16 (usub16 (cc &&& 0xF7FF) 0x1130) 0x60) with
      | none => rw [hw] at h; cases h
      | some p =>
        obtain ⟨fa, wa⟩ := p
        rw [hw] at h
        simp only [Option.some.injEq] at h
        subst h
        exact writeChar_front_of_back f fa _ wa hact hw
    · split at h
      · cases hb : backspace f with
        | none => rw [hb] at h; cases h
        | some fa =>
          rw [hb] at h
          simp only [] at h
          have hfa : fa.front = f.front := backspace_front_of_back f fa hact hb
          have hfaact : fa.active = some BufSel.back :=
            (backspace_facts f fa hb).2.1.trans hact
          cases hw : writeChar fa (uadd16 (usub16 (cc &&& 0xF7FF) 0x1220) 0x70) with
          | none => rw [hw] at h; cases h
          | some p =>
            obtain ⟨fb, wb⟩ := p
            rw [hw] at h
            simp only [Option.some.injEq] at h
            subst h
            exact (writeChar_front_of_back fa fb _ wb hfaact hw).trans hfa
      · split at h
        · cases hb : backspace f with
          | none => rw [hb] at h; cases h
          | some fa =>
            rw [hb] at h
            simp only [] at h
            have hfa : fa.front = f.front := backspace_front_of_back f fa hact hb
            have hfaact : fa.active = some BufSel.back :=
              (backspace_facts f fa hb).2.1.trans hact
            cases hw : writeChar fa (uadd16 (usub16 (cc &&& 0xF7FF) 0x1320) 0x90) with
            | none => rw [hw] at h; cases h
            | some p =>
              obtain ⟨fb, wb⟩ := p
              rw [hw] at h
              simp only [Option.some.injEq] at h
              subst h
              exact (writeChar_front_of_back fa fb _ wb hfaact hw).trans hfa
        · simp only [Option.some.injEq] at h
          subst h
          rfl

lemma parsePreamble_front_of_back (f f2 : EIA608Frame) (cc : Nat)
    (hact : f.active = some BufSel.back)
    (h : parsePreamble f cc = some f2) : f2.front = f.front := by
  unfold parsePreamble at h
  rw [hact] at h
  simp only [Option.some.injEq] at h
  subst h
  rfl

/-- With an active back buffer, every control command except end of
caption leaves the front grid unchanged or clears it. -/
lemma parseControl_front_of_back (f f1 : EIA608Frame) (cc : Nat) (r : Bool)
    (hact : f.active = some BufSel.back) (hcmd : ctrlCmd cc ≠ 0x142F)
    (h : parseControl f cc = some (f1, r)) :
    f1.front.data = f.front.data ∨ f1.front.data = fun _ _ => emptyChar := by
  unfold parseControl at h
  simp only [] at h
  split at h
  · simp only [Option.some.injEq, Prod.mk.injEq] at h
    obtain ⟨h1, _⟩ := h; subst h1
    exact Or.inl rfl
  · simp only [Option.some.injEq, Prod.mk.injEq] at h
    obtain ⟨h1, _⟩ := h; subst h1
    exact Or.inr rfl
  · simp only [Option.some.injEq, Prod.mk.injEq] at h
    obtain ⟨h1, _⟩ := h; subst h1
    exact Or.inl rfl
  · simp only [Option.some.injEq, Prod.mk.injEq] at h
    obtain ⟨h1, _⟩ := h; subst h1
    exact Or.inl rfl
  · simp only [Option.some.injEq, Prod.mk.injEq] at h
    obtain ⟨h1, _⟩ := h; subst h1
    exact Or.inl rfl
  -- carriage return
  · rw [hact] at h
    simp only [] at h
    split at h
    · cases h
    · rename_i b hcr
      simp only [Option.some.injEq, Prod.mk.injEq] at h
      obtain ⟨h1, _⟩ := h; subst h1
      exact Or.inl rfl
  -- backspace
  · rw [hact] at h
    simp only [] at h
    cases hbs : backspace f with
    | none => rw [hbs] at h; cases h
    | some f2 =>
      rw [hbs] at h
      simp only [Option.some.injEq, Prod.mk.injEq] at h
      obtain ⟨h1, _⟩ := h; subst h1
      exact Or.inl (congrArg frameBuffer.data (backspace_front_of_back f f2 hact hbs))
  -- delete to end of row
  · rw [hact] at h
    simp only [] at h
    simp only [Option.some.injEq, Prod.mk.injEq] at h
    obtain ⟨h1, _⟩ := h; subst h1
    exact Or.inl rfl
  · simp only [Option.some.injEq, Prod.mk.injEq] at h
    obtain ⟨h1, _⟩ := h; subst h1
    exact Or.inl rfl
  · simp only [Option.some.injEq, Prod.mk.injEq] at h
    obtain ⟨h1, _⟩ := h; subst h1
    exact Or.inl rfl
  -- end of caption (excluded)
  · rename_i heq
    exact absurd heq hcmd
  · rw [hact] at h
    simp only [] at h
    simp only [Option.some.injEq, Prod.mk.injEq] at h
    obtain ⟨h1, _⟩ := h; subst h1
    exact Or.inl rfl
  · rw [hact] at h
    simp only [] at h
    simp only [Option.some.injEq, Prod.mk.injEq] at h
    obtain ⟨h1, _⟩ := h; subst h1
    exact Or.inl rfl
  · rw [hact] at h
    simp only [] at h
    simp only [Option.some.injEq, Prod.mk.injEq] at h
    obtain ⟨h1, _⟩ := h; subst h1
    exact Or.inl rfl
  · simp only [Option.some.injEq, Prod.mk.injEq] at h
    obtain ⟨h1, _⟩ := h; subst h1
    exact Or.inl rfl

/-- C2: with the back buffer active, a decode step never makes
characters written to the back buffer appear in the front buffer until
an end-of-caption control is decoded (the front grid is left unchanged,
or cleared by erase-display-memory, by every non-end-of-caption unit);
and decoding an end-of-caption unit swaps the buffers so that the new
front equals the pre-swap back buffer, the new back grid is empty (its
configured row/column reset to 0), the live cursor becomes (0,0), the
back buffer becomes active, and `Decode` returns ready = true. -/
theorem popon_isolation_and_end_of_caption_swap (f f1 : EIA608Frame) (cc : Nat)
    (r : Bool) (hact : f.active = some BufSel.back)
    (h : Decode f cc = some (f1, r)) :
    (¬ isEOCUnit f cc →
      (f1.front.data = f.front.data ∨ f1.front.data = fun _ _ => emptyChar)) ∧
    (isEOCUnit f cc →
      f1.front = f.back ∧ (f1.back.data = fun _ _ => emptyChar) ∧
      f1.back.state.Row = 0 ∧ f1.back.state.Col = 0 ∧
      f1.row = 0 ∧ f1.col = 0 ∧ f1.active = some BufSel.back ∧ r = true) := by
  unfold Decode at h
  by_cases hp : parityWord cc ≠ cc
  · rw [if_pos hp] at h
    simp only [Option.some.injEq, Prod.mk.injEq] at h
    obtain ⟨h1, _⟩ := h; subst h1
    exact ⟨fun _ => Or.inl rfl, fun hE => absurd hE.1 hp⟩
  · rw [if_neg hp] at h
    simp only [] at h
    have hpw : parityWord cc = cc := not_not.mp hp
    by_cases hz : cc &&& 0x7F7F = 0
    · rw [if_pos hz] at h
      simp only [Option.some.injEq, Prod.mk.injEq] at h
      obtain ⟨h1, _⟩ := h; subst h1
      refine ⟨fun _ => Or.inl rfl, fun hE => ?_⟩
      have hcl := hE.2.1
      rw [hz] at hcl
      exact absurd hcl (by decide)
    · rw [if_neg hz] at h
      by_cases hdup : ((isSpecialNA (cc &&& 0x7F7F) || isControl (cc &&& 0x7F7F)) = true ∧
          cc &&& 0x7F7F = f.ccData)
      · rw [if_pos hdup] at h
        simp only [Option.some.injEq, Prod.mk.injEq] at h
        obtain ⟨h1, _⟩ := h; subst h1
        exact ⟨fun _ => Or.inl rfl, fun hE => absurd hdup.2 hE.2.2.2⟩
      · rw [if_neg hdup] at h
        by_cases hctl : isControl (cc &&& 0x7F7F) = true
        · rw [if_pos hctl] at h
          by_cases hcmd : ctrlCmd (cc &&& 0x7F7F) = 0x142F
          · have hne : cc &&& 0x7F7F ≠ f.ccData := fun he => hdup ⟨by simp [hctl], he⟩
            have hE : isEOCUnit f cc := ⟨hpw, hctl, hcmd, hne⟩
            unfold parseControl at h
            rw [hcmd] at h
            simp only [] at h
            simp only [Option.some.injEq, Prod.mk.injEq] at h
            obtain ⟨h1, h2⟩ := h; subst h1
            exact ⟨fun hnE => absurd hE hnE,
              fun _ => ⟨rfl, rfl, rfl, rfl, rfl, rfl, rfl, h2.symm⟩⟩
          · have hfr := parseControl_front_of_back
              { f with ccData := cc &&& 0x7F7F } f1 (cc &&& 0x7F7F) r hact hcmd h
            exact ⟨fun _ => hfr, fun hE => absurd hE.2.2.1 hcmd⟩
        · rw [if_neg hctl] at h
          by_cases hactn : ({ f with ccData := cc &&& 0x7F7F } : EIA608Frame).active = none
          · exfalso
            rw [show ({ f with ccData := cc &&& 0x7F7F } : EIA608Frame).active = f.active
              from rfl, hact] at hactn
            cases hactn
          · rw [if_neg hactn] at h
            refine ⟨fun _ => ?_, fun hE => absurd hE.2.1 hctl⟩
            by_cases hpre : isPreamble (cc &&& 0x7F7F) = true
            · rw [if_pos hpre] at h
              cases hpp : parsePreamble { f with ccData := cc &&& 0x7F7F }
                  (cc &&& 0x7F7F) with
              | none => rw [hpp] at h; cases h
              | some f2 =>
                rw [hpp] at h
                simp only [Option.some.injEq, Prod.mk.injEq] at h
                obtain ⟨h1, _⟩ := h; subst h1
                exact Or.inl (congrArg frameBuffer.data
                  (parsePreamble_front_of_back { f with ccData := cc &&& 0x7F7F } f2
                    (cc &&& 0x7F7F) hact hpp))
            · rw [if_neg hpre] at h
              by_cases hmid : isMidRowChange (cc &&& 0x7F7F) = true
              · rw [if_pos hmid] at h
                simp only [Option.some.injEq, Prod.mk.injEq] at h
                obtain ⟨h1, _⟩ := h; subst h1
                left
                unfold parseMidRowChange
                split <;> rfl
              · rw [if_neg hmid] at h
                by_cases htxt : (isBasicNA (cc &&& 0x7F7F) || isSpecialNA (cc &&& 0x7F7F) ||
                    isWesternEu (cc &&& 0x7F7F)) = true
                · rw [if_pos htxt] at h
                  cases hpt : parseText { f with ccData := cc &&& 0x7F7F }
                      (cc &&& 0x7F7F) with
                  | none => rw [hpt] at h; cases h
                  | some f2 =>
                    rw [hpt] at h
                    simp only [] at h
                    cases hab : activeBuf f2 with
                    | none => rw [hab] at h; cases h
                    | some b =>
                      rw [hab] at h
                      simp only [Option.some.injEq, Prod.mk.injEq] at h
                      obtain ⟨h1, _⟩ := h; subst h1
                      exact Or.inl (congrArg frameBuffer.data
                        (parseText_front_of_back { f with ccData := cc &&& 0x7F7F } f2
                          (cc &&& 0x7F7F) hact hpt))
                · rw [if_neg htxt] at h
                  simp only [Option.some.injEq, Prod.mk.injEq] at h
                  obtain ⟨h1, _⟩ := h; subst h1
                  exact Or.inl rfl

/-- The decoder state after resume caption loading (0x9420) and the
basic-text pair 0xC1C1 ("AA" into the back buffer). -/
def c2Staged : EIA608Frame := decodeStateAfter (decodeStateAfter freshFrame 0x9420) 0xC1C1

/-- The state after then decoding end of caption (0x942F). -/
def c2Swapped : EIA608Frame := decodeStateAfter c2Staged 0x942F

/-- Witness for C2: from the staged pop-on state, decoding end of
caption yields the swapped front/back with ready = true. -/
theorem popon_isolation_witness :
    c2Staged.active = some BufSel.back ∧
    Decode c2Staged 0x942F = some (c2Swapped, true) ∧
    isEOCUnit c2Staged 0x942F ∧
    (c2Swapped.front = c2Staged.back ∧ (c2Swapped.back.data = fun _ _ => emptyChar) ∧
      c2Swapped.back.state.Row = 0 ∧ c2Swapped.back.state.Col = 0 ∧
      c2Swapped.row = 0 ∧ c2Swapped.col = 0 ∧
      c2Swapped.active = some BufSel.back ∧ true = true) :=
  ⟨rfl, rfl, ⟨rfl, rfl, rfl, by decide⟩,
    (popon_isolation_and_end_of_caption_swap c2Staged c2Swapped 0x942F true rfl rfl).2
      ⟨rfl, rfl, rfl, by decide⟩⟩
